import Mathlib

/-!
# Pomerium proxy: route construction, transport selection and session cookies

A shallow embedding of `proxy/proxy.go` (package `proxy`) and of the cookie session
store exercised by `internal/sessions/cookie_store_test.go` (package `sessions`).

Conventions of the embedding.

* Go heap objects that are mutated in place (`*mux.Router`, `*Proxy`) are passed and
  returned explicitly: a function that mutates its router returns the router's state
  at the moment the Go function returns, next to the Go return value.
* A Go `(value, error)` pair whose value is discarded on error is an `Except`; a pair
  whose two halves can both be set is a Lean pair of options.
* Calls into other packages (`cryptutil`, `urlutil`, `jws`, `config`, `httputil`,
  `clients`, the Go standard library) are fields of `Env`; the theorems hold for
  every `Env`.
* Middleware and handler values are data: a constructor records which Go constructor
  was called and with which arguments, in call order.
* Logging calls have no effect on the modelled state and are left out.
-/

/-- A Go `error` value, identified with its message. -/
abbrev Error := String

/-- Go `time.Duration`: a signed count of nanoseconds. -/
abbrev Duration := Int

/-- Go `len` of a string: its number of bytes. A Go string is a byte string, held here
as a `String` with one `Char` per byte. -/
def len (s : String) : Nat := s.length

/-- The parts of `net/url.URL` the proxy reads. -/
structure URL where
  Scheme : String
  Host : String
  Path : String
deriving DecidableEq, Repr

namespace sessions

/-- Session state, `sessions.State`, with the fields the sources populate. -/
structure State where
  Subject : String
  User : String
  Email : String
deriving DecidableEq, Repr

/-- A value implementing `encoding.Marshaler` / `encoding.Unmarshaler`: identified by
the implementation that built it, its key material and its issuer. What it computes
is given separately (`Codec`). -/
structure MarshalUnmarshaler where
  kind : String
  key : String
  issuer : String
deriving DecidableEq, Repr

/-- Go `sessions.CookieOptions`. -/
structure CookieOptions where
  Name : String
  Domain : String
  Secure : Bool
  HTTPOnly : Bool
  Expire : Duration
deriving DecidableEq, Repr

/-- Go `sessions.CookieStore`, as built in `TestCookieStore_SaveSession`; a nil encoder
or decoder is `none`. -/
structure CookieStore where
  Name : String
  Domain : String
  Secure : Bool
  HTTPOnly : Bool
  Expire : Duration
  encoder : Option MarshalUnmarshaler
  decoder : Option MarshalUnmarshaler
deriving DecidableEq, Repr

/-- Values of the interface `sessions.SessionLoader` that `proxy.New` builds. -/
inductive SessionLoader where
  | CookieLoader (cs : CookieStore)
  | HeaderStore (enc : MarshalUnmarshaler) (headerType : String)
  | QueryParamStore (enc : MarshalUnmarshaler) (qp : String)
deriving DecidableEq, Repr

end sessions

namespace proxy

open sessions

/-- Stands for `*x509.CertPool`. -/
structure CertPool where
  id : Nat
deriving DecidableEq, Repr

/-- Stands for `tls.Certificate`. -/
structure Certificate where
  id : Nat
deriving DecidableEq, Repr

/-- Go `tls.Config`: the four fields the proxy writes and four it never touches; the
zero value is `{}`. -/
structure TLSConfig where
  InsecureSkipVerify : Bool := false
  RootCAs : Option CertPool := none
  Certificates : List Certificate := []
  ServerName : String := ""
  NextProtos : List String := []
  CipherSuites : List Nat := []
  MinVersion : Nat := 0
  MaxVersion : Nat := 0
deriving DecidableEq, Repr

/-- Go `http.Transport`: its TLS client configuration (nil is `none`) and the rest of
its settings. -/
structure Transport where
  TLSClientConfig : Option TLSConfig
  settings : String
deriving DecidableEq, Repr

/-- Decorators of a `tripper.Chain`. -/
inductive Tripper where
  | HTTPMetricsRoundTripper (service : String) (destination : String)
deriving DecidableEq, Repr

/-- The `http.RoundTripper` that `Chain.Then` yields: the chain, outermost first,
around a transport. -/
structure RoundTripper where
  chain : List Tripper
  base : Transport
deriving DecidableEq, Repr

/-- Go `config.Policy`, with the fields `proxy.go` reads. `Source` and `Destination` are
pointers in Go; `reverseProxyHandler` dereferences both on its first lines, and a policy
in which one of them is nil is outside the model. -/
structure Policy where
  Source : URL
  Destination : URL
  TLSSkipVerify : Bool
  RootCAs : Option CertPool
  ClientCertificate : Option Certificate
  TLSServerName : String
  AllowWebsockets : Bool
  AllowPublicUnauthenticatedAccess : Bool
  CORSAllowPreflight : Bool
  UpstreamTimeout : Duration
  SetRequestHeaders : List (String × String)
deriving DecidableEq, Repr

/-- The reverse proxy `httputil.NewReverseProxy` returns, with its `Transport` field. -/
structure ReverseProxy where
  Destination : URL
  Transport : Option RoundTripper
deriving DecidableEq, Repr

/-- Middleware values handed to `rp.Use`, one constructor per Go constructor. -/
inductive Middleware where
  | TimeoutHandlerFunc (timeout : Duration) (timeoutError : String)
  | CorsBypass (target : ReverseProxy)
  | RetrieveSession (loaders : List SessionLoader)
  | StripCookie (cookieName : String)
  | AuthenticateSession
  | AuthorizeSession
  | SignRequest (signer : MarshalUnmarshaler)
  | SetResponseHeaders (headers : List (String × String))
deriving DecidableEq, Repr

/-- Handlers registered on the router. -/
inductive Handler where
  | NotFound
  | RobotsTxt
  | FwdAuth
  | Dashboard (name : String)
  | Proxy (rp : ReverseProxy)
deriving DecidableEq, Repr

/-- A sub-router `r.Host(host).Subrouter()` with the handler of its `PathPrefix` route
and the middleware added by `Use`, first added first. -/
structure Subrouter where
  Host : String
  Path : String
  Handler : Handler
  Middlewares : List Middleware
deriving DecidableEq, Repr

/-- Go `rp.Use(mw)`: append a middleware to the sub-router. -/
def Subrouter.Use (rp : Subrouter) (mw : Middleware) : Subrouter :=
  { rp with Middlewares := rp.Middlewares ++ [mw] }

/-- Routes of a `mux.Router`. -/
inductive Route where
  | HandleFunc (path : String) (handler : Handler) (methods : List String)
  | Sub (rp : Subrouter)
deriving DecidableEq, Repr

/-- Go `mux.Router`: its routes in registration order and the settings `UpdatePolicies`
writes. -/
structure Router where
  NotFoundHandler : Option Handler
  skipClean : Bool
  strictSlash : Bool
  routes : List Route
deriving DecidableEq, Repr

/-- State of the router once a sub-router built for it stands as its newest route. -/
def Router.attach (r : Router) (rp : Subrouter) : Router :=
  { r with routes := r.routes ++ [Route.Sub rp] }

/-- Go `config.Options`, with the fields `proxy.go` reads. `ForwardAuthURL` is tested
against nil by `UpdatePolicies`; the other two URLs are dereferenced by `New` without a
test, and options in which one of them is nil are outside the model. -/
structure Options where
  SharedKey : String
  CookieSecret : String
  AuthenticateURL : URL
  AuthorizeURL : URL
  ForwardAuthURL : Option URL
  SigningKey : String
  CookieName : String
  CookieDomain : String
  CookieSecure : Bool
  CookieHTTPOnly : Bool
  CookieExpire : Duration
  DefaultUpstreamTimeout : Duration
  RefreshCooldown : Duration
  Policies : List Policy
  OverrideCertificateName : String
  CA : String
  CAFile : String
  GRPCClientTimeout : Duration
  GRPCClientDNSRoundRobin : Bool
  GRPCInsecure : Bool
deriving DecidableEq, Repr

/-- Stands for `cipher.AEAD`. -/
structure Cipher where
  key : String
deriving DecidableEq, Repr

/-- Go `clients.Options`. -/
structure ClientOptions where
  Addr : URL
  OverrideCertificateName : String
  SharedSecret : String
  CA : String
  CAFile : String
  RequestTimeout : Duration
  ClientDNSRoundRobin : Bool
  WithInsecure : Bool
deriving DecidableEq, Repr

/-- Stands for `clients.Authorizer`. -/
structure Authorizer where
  name : String
  opts : ClientOptions
deriving DecidableEq, Repr

/-- Go `proxy.Proxy`. A nil interface or pointer field is `none`. -/
structure Proxy where
  SharedKey : String
  sharedCipher : Option Cipher
  authenticateURL : Option URL
  authenticateSigninURL : Option URL
  authenticateSignoutURL : Option URL
  authorizeURL : Option URL
  AuthorizeClient : Option Authorizer
  encoder : Option MarshalUnmarshaler
  cookieOptions : CookieOptions
  cookieSecret : List Nat
  defaultUpstreamTimeout : Duration
  refreshCooldown : Duration
  Handler : Option Router
  sessionStore : Option CookieStore
  sessionLoaders : List SessionLoader
  signingKey : String
  templates : Option String
deriving DecidableEq, Repr

/-- Path to authenticate's sign in endpoint. -/
def signinURL : String := "/.pomerium/sign_in"

/-- Path to authenticate's sign out endpoint. -/
def signoutURL : String := "/.pomerium/sign_out"

/-- The functions `proxy.go` calls in other packages. -/
structure Env where
  /-- Go `cryptutil.NewAEADCipherFromBase64`. -/
  NewAEADCipherFromBase64 : String → Except Error Cipher
  /-- Go `base64.StdEncoding.DecodeString`: the bytes decoded, and the error if any. -/
  DecodeString : String → List Nat × Option Error
  /-- Go `urlutil.ValidateURL`. -/
  ValidateURL : URL → Option Error
  /-- Go `urlutil.DeepCopy`. -/
  DeepCopy : URL → URL
  /-- Go `(*url.URL).ResolveReference`. -/
  ResolveReference : URL → URL → URL
  /-- Go `(*url.URL).Hostname`. -/
  Hostname : URL → String
  /-- Go `jws.NewES256Signer key issuer`. -/
  NewES256Signer : String → String → Except Error MarshalUnmarshaler
  /-- Go `jws.NewHS256Signer key issuer`. -/
  NewHS256Signer : String → String → Except Error MarshalUnmarshaler
  /-- Go `sessions.NewCookieLoader`. -/
  NewCookieLoader : CookieOptions → MarshalUnmarshaler → Except Error CookieStore
  /-- Go `frontend.NewTemplates` under `template.Must`. -/
  NewTemplates : String
  /-- Go `clients.NewAuthorizeClient`. -/
  NewAuthorizeClient : String → ClientOptions → Option Authorizer × Option Error
  /-- Go `(*config.Policy).Validate`: the policy as the call leaves it (the method may
  have a pointer receiver), and its error. -/
  Validate : Policy → Policy × Option Error
  /-- Go `httputil.NewRouter`. -/
  NewRouter : Router
  /-- Go `(*Proxy).registerDashboardHandlers`: the router with the dashboard routes
  added; the proxy is read, not written. -/
  registerDashboardHandlers : Proxy → Router → Router
  /-- Go `time.Duration.String`, as used by `%s`. -/
  DurationString : Duration → String
  /-- Go `http.DefaultTransport`. -/
  DefaultTransport : Transport

/-- ValidateOptions checks that proper configuration settings are set to create a
proper Proxy instance; `none` is Go's nil error. -/
def ValidateOptions (env : Env) (o : Options) : Option Error :=
  match env.NewAEADCipherFromBase64 o.SharedKey with
  | .error err => some ("proxy: invalid 'SHARED_SECRET': " ++ err)
  | .ok _ =>
    match env.NewAEADCipherFromBase64 o.CookieSecret with
    | .error err => some ("proxy: invalid 'COOKIE_SECRET': " ++ err)
    | .ok _ =>
      match env.ValidateURL o.AuthenticateURL with
      | some err => some ("proxy: invalid 'AUTHENTICATE_SERVICE_URL': " ++ err)
      | none =>
        match env.ValidateURL o.AuthorizeURL with
        | some err => some ("proxy: invalid 'AUTHORIZE_SERVICE_URL': " ++ err)
        | none =>
          if len o.SigningKey != 0 then
            match env.NewES256Signer o.SigningKey "" with
            | .error err => some ("proxy: invalid 'SIGNING_KEY': " ++ err)
            | .ok _ => none
          else none

/-- Go `roundTripperFromPolicy`: adjusts a clone of the default transport for a given
route. -/
def roundTripperFromPolicy (env : Env) (_p : Proxy) (policy : Policy) : RoundTripper :=
  let transport : Transport := env.DefaultTransport
  let c : List Tripper := []
  let c := c ++ [Tripper.HTTPMetricsRoundTripper "proxy" policy.Destination.Host]
  let tlsClientConfig : TLSConfig := {}
  let isCustomClientConfig := false
  let (tlsClientConfig, isCustomClientConfig) :=
    if policy.TLSSkipVerify then
      ({ tlsClientConfig with InsecureSkipVerify := true }, true)
    else (tlsClientConfig, isCustomClientConfig)
  let (tlsClientConfig, isCustomClientConfig) :=
    match policy.RootCAs with
    | some pool => ({ tlsClientConfig with RootCAs := some pool }, true)
    | none => (tlsClientConfig, isCustomClientConfig)
  let (tlsClientConfig, isCustomClientConfig) :=
    match policy.ClientCertificate with
    | some cert => ({ tlsClientConfig with Certificates := [cert] }, true)
    | none => (tlsClientConfig, isCustomClientConfig)
  let (tlsClientConfig, isCustomClientConfig) :=
    if policy.TLSServerName != "" then
      ({ tlsClientConfig with ServerName := policy.TLSServerName }, true)
    else (tlsClientConfig, isCustomClientConfig)
  let transport :=
    if isCustomClientConfig then { transport with TLSClientConfig := some tlsClientConfig }
    else transport
  { chain := c, base := transport }

/-- Go `reverseProxyHandler`. The first component is the state of the router `r` when
the Go function returns (the route's sub-router is registered on `r` before any check
that can fail); the second is the returned error, `none` when Go returns `(r, nil)`. -/
def reverseProxyHandler (env : Env) (p : Proxy) (r : Router) (policy : Policy) :
    Router × Option Error :=
  let proxy : ReverseProxy := { Destination := policy.Destination, Transport := none }
  let proxy := { proxy with Transport := some (roundTripperFromPolicy env p policy) }
  let rp : Subrouter :=
    { Host := policy.Source.Host, Path := "/", Handler := Handler.Proxy proxy, Middlewares := [] }
  let rp :=
    if !policy.AllowWebsockets then
      let timeout := p.defaultUpstreamTimeout
      let timeout := if policy.UpstreamTimeout != 0 then policy.UpstreamTimeout else timeout
      let timeoutMsg := policy.Destination.Host ++ " timed out in " ++ env.DurationString timeout
      rp.Use (Middleware.TimeoutHandlerFunc timeout timeoutMsg)
    else rp
  let rp := if policy.CORSAllowPreflight then rp.Use (Middleware.CorsBypass proxy) else rp
  if policy.AllowPublicUnauthenticatedAccess then (r.attach rp, none)
  else
    let rp := rp.Use (Middleware.RetrieveSession p.sessionLoaders)
    let rp := rp.Use (Middleware.StripCookie p.cookieOptions.Name)
    let rp := rp.Use Middleware.AuthenticateSession
    let rp := rp.Use Middleware.AuthorizeSession
    let signed : Except Error Subrouter :=
      if len p.signingKey != 0 then
        match env.NewES256Signer p.signingKey policy.Destination.Host with
        | .error err => .error err
        | .ok signer => .ok (rp.Use (Middleware.SignRequest signer))
      else .ok rp
    match signed with
    | .error err => (r.attach rp, some err)
    | .ok rp =>
      let rp :=
        if policy.SetRequestHeaders.length != 0 then
          rp.Use (Middleware.SetResponseHeaders policy.SetRequestHeaders)
        else rp
      (r.attach rp, none)

/-- The loop of `UpdatePolicies` over `opts.Policies`: the router built so far, and the
error that ended the loop early, if any. -/
def UpdatePolicies.loop (env : Env) (p : Proxy) : Router → List Policy → Router × Option Error
  | r, [] => (r, none)
  | r, policy :: rest =>
    match env.Validate policy with
    | (_, some err) => (r, some ("proxy: invalid policy " ++ err))
    | (policy, none) =>
      match reverseProxyHandler env p r policy with
      | (r, some err) => (r, some err)
      | (r, none) => UpdatePolicies.loop env p r rest

/-- The router `UpdatePolicies` prepares before it visits the policies. -/
def UpdatePolicies.baseRouter (env : Env) (p : Proxy) (opts : Options) : Router :=
  let r := env.NewRouter
  let r := { r with NotFoundHandler := some Handler.NotFound }
  let r := { r with skipClean := true }
  let r := { r with strictSlash := true }
  let r := { r with routes := r.routes ++ [Route.HandleFunc "/robots.txt" Handler.RobotsTxt ["GET"]] }
  let r := env.registerDashboardHandlers p r
  match opts.ForwardAuthURL with
  | some u =>
    r.attach { Host := env.Hostname u, Path := "/", Handler := Handler.FwdAuth, Middlewares := [] }
  | none => r

/-- Go `UpdatePolicies`: the proxy after the call and the returned error. -/
def UpdatePolicies (env : Env) (p : Proxy) (opts : Options) : Proxy × Option Error :=
  let r := UpdatePolicies.baseRouter env p opts
  match UpdatePolicies.loop env p r opts.Policies with
  | (_, some err) => (p, some err)
  | (r, none) => ({ p with Handler := some r }, none)

/-- Go `New`: the returned proxy pointer (nil is `none`) and the returned error. The
policy-count callback handed to `metrics` touches neither, and is left out. -/
def New (env : Env) (opts : Options) : Option Proxy × Option Error :=
  match ValidateOptions env opts with
  | some err => (none, some err)
  | none =>
    let sharedCipher := (env.NewAEADCipherFromBase64 opts.SharedKey).toOption
    let decodedCookieSecret := (env.DecodeString opts.CookieSecret).1
    match env.NewHS256Signer opts.SharedKey opts.AuthenticateURL.Host with
    | .error err => (none, some err)
    | .ok encoder =>
      let cookieOptions : CookieOptions :=
        { Name := opts.CookieName
          Domain := opts.CookieDomain
          Secure := opts.CookieSecure
          HTTPOnly := opts.CookieHTTPOnly
          Expire := opts.CookieExpire }
      match env.NewCookieLoader cookieOptions encoder with
      | .error err => (none, some err)
      | .ok cookieStore =>
        let p : Proxy :=
          { SharedKey := opts.SharedKey
            sharedCipher := sharedCipher
            authenticateURL := none
            authenticateSigninURL := none
            authenticateSignoutURL := none
            authorizeURL := none
            AuthorizeClient := none
            encoder := some encoder
            cookieSecret := decodedCookieSecret
            cookieOptions := cookieOptions
            defaultUpstreamTimeout := opts.DefaultUpstreamTimeout
            refreshCooldown := opts.RefreshCooldown
            Handler := none
            sessionStore := some cookieStore
            sessionLoaders :=
              [ SessionLoader.CookieLoader cookieStore,
                SessionLoader.HeaderStore encoder "Pomerium",
                SessionLoader.QueryParamStore encoder "pomerium_session" ]
            signingKey := opts.SigningKey
            templates := some env.NewTemplates }
        let authorizeURL := env.DeepCopy opts.AuthorizeURL
        let authenticateURL := env.DeepCopy opts.AuthenticateURL
        let p := { p with authorizeURL := some authorizeURL }
        let p := { p with authenticateURL := some authenticateURL }
        let signin := env.ResolveReference authenticateURL { Scheme := "", Host := "", Path := signinURL }
        let p := { p with authenticateSigninURL := some signin }
        let signout := env.ResolveReference authenticateURL { Scheme := "", Host := "", Path := signoutURL }
        let p := { p with authenticateSignoutURL := some signout }
        match UpdatePolicies env p opts with
        | (_, some err) => (none, some err)
        | (p, none) =>
          let (client, err) := env.NewAuthorizeClient "grpc"
            { Addr := authorizeURL
              OverrideCertificateName := opts.OverrideCertificateName
              SharedSecret := opts.SharedKey
              CA := opts.CA
              CAFile := opts.CAFile
              RequestTimeout := opts.GRPCClientTimeout
              ClientDNSRoundRobin := opts.GRPCClientDNSRoundRobin
              WithInsecure := opts.GRPCInsecure }
          (some { p with AuthorizeClient := client }, err)

end proxy

namespace sessions

/-! ## The cookie session store

`internal/sessions/cookie_store.go` is exercised by `cookie_store_test.go`; the store's
functions below follow the specification of the store. Go strings and byte slices are
byte strings, held here as a `String` with one `Char` per byte, so that the size of a
payload is its `len`, the length of the `String`. -/

/-- Modelled from the spec: the codec behind `encoding.Marshaler` and
`encoding.Unmarshaler` (section 4.1), `encode(state) -> bytes` and `decode(bytes) -> state`,
each of which can fail; the first argument is the encoder or decoder value called. -/
structure Codec where
  Marshal : MarshalUnmarshaler → State → Except Error String
  Unmarshal : MarshalUnmarshaler → String → Except Error State

/-- The values the test hands to `SaveSession` as `state interface{}`: a string, a byte
slice, or a `*State`. -/
inductive SessionValue where
  | String (s : String)
  | Bytes (b : String)
  | State (s : State)
deriving DecidableEq, Repr

/-- A `Set-Cookie` header written to the response: the attributes of `http.Cookie` the
store sets. -/
structure Cookie where
  Name : String
  Value : String
  Path : String
  Domain : String
  Secure : Bool
  HttpOnly : Bool
  Expire : Duration
deriving DecidableEq, Repr

/-- The cookies of an `http.Request`, as name and value pairs in header order. -/
structure Request where
  Cookies : List (String × String)
deriving DecidableEq, Repr

/-- Go `(*http.Request).AddCookie`: only the name and the value travel in the request. -/
def Request.AddCookie (r : Request) (c : Cookie) : Request :=
  { r with Cookies := r.Cookies ++ [(c.Name, c.Value)] }

/-- Go `(*http.Request).Cookie`: the first cookie of that name, if any. -/
def Request.Cookie (r : Request) (name : String) : Option (String × String) :=
  r.Cookies.find? (fun c => c.1 = name)

/-- The request the test builds after a save: a fresh request to which every cookie of
the recorded response is added, in order. -/
def replay (cookies : List Cookie) : Request :=
  cookies.foldl Request.AddCookie { Cookies := [] }

/-- Modelled from the spec: the single-cookie size budget of `cookie_store.go` (section 3,
"~4096 bytes"). -/
def MaxCookieSize : Nat := 4096

/-- Modelled from the spec: the "no session" error of `LoadSession` in `cookie_store.go`. -/
def ErrNoSessionFound : Error := "no session"

/-- Modelled from the spec: the split of an oversized payload of `cookie_store.go` into an
ordered sequence of chunks of at most `n` bytes (section 4.2, step 4); `fuel` bounds the
number of chunks. -/
def chunkList (n : Nat) : Nat → List Char → List (List Char)
  | 0, _ => []
  | fuel + 1, l =>
    match l with
    | [] => []
    | c :: cs => (c :: cs).take n :: chunkList n fuel ((c :: cs).drop n)

/-- Modelled from the spec: the chunks of a payload of `cookie_store.go`, as strings. -/
def chunk (n : Nat) (s : String) : List String :=
  (chunkList n (len s) s.data).map String.mk

/-- Modelled from the spec: the naming scheme of the chunk cookies of `cookie_store.go`
(section 4.2, step 4: deterministic, reversible, sharing the base name). The first chunk
goes under the store's name, chunk `i` under the name followed by `_i`. -/
def chunkName (name : String) (i : Nat) : String :=
  if i = 0 then name else name ++ "_" ++ toString i

/-- Modelled from the spec: the cookie `cookie_store.go` emits for a value (section 4.2,
step 3: name, domain, secure/http-only, expiry, path "/"). -/
def makeCookie (cs : CookieStore) (name value : String) : Cookie :=
  { Name := name, Value := value, Path := "/", Domain := cs.Domain, Secure := cs.Secure,
    HttpOnly := cs.HTTPOnly, Expire := cs.Expire }

/-- Modelled from the spec: one cookie per chunk, of `cookie_store.go`, numbered from `i`. -/
def emitChunks (cs : CookieStore) : Nat → List String → List Cookie
  | _, [] => []
  | i, c :: rest => makeCookie cs (chunkName cs.Name i) c :: emitChunks cs (i + 1) rest

/-- Modelled from the spec: steps 3 and 4 of `SaveSession` in `cookie_store.go`: one cookie
when the payload fits the budget, one cookie per chunk otherwise. -/
def setSessionCookie (cs : CookieStore) (payload : String) : List Cookie :=
  if len payload ≤ MaxCookieSize then [makeCookie cs cs.Name payload]
  else emitChunks cs 0 (chunk MaxCookieSize payload)

/-- Modelled from the spec: `SaveSession` of `cookie_store.go` (section 4.2). A string or a
byte slice is the payload as it is; any other state needs an encoder, whose error is
passed on. The result is the list of cookies written to the response. -/
def SaveSession (codec : Codec) (cs : CookieStore) (x : SessionValue) :
    Except Error (List Cookie) :=
  let value : Except Error String :=
    match x with
    | .String s => .ok s
    | .Bytes b => .ok b
    | .State st =>
      match cs.encoder with
      | none => .error "cannot save non-string type: no encoder configured"
      | some enc => codec.Marshal enc st
  match value with
  | .error err => .error err
  | .ok payload => .ok (setSessionCookie cs payload)

/-- Modelled from the spec: step 1 of `LoadSession` in `cookie_store.go`: the values of the
request's cookies that match the store's name, the exact name first and then the
chunk-suffixed names by chunk number, from chunk `i` on, `fuel` numbers being tried. -/
def collectChunks (r : Request) (name : String) : Nat → Nat → List String
  | 0, _ => []
  | fuel + 1, i =>
    match r.Cookie (chunkName name i) with
    | none => collectChunks r name fuel (i + 1)
    | some c => c.2 :: collectChunks r name fuel (i + 1)

/-- Modelled from the spec: `LoadSession` of `cookie_store.go` (section 4.2): collect the
matching cookies and fail with "no session" if there is none, concatenate them in chunk
order, then decode, which needs a decoder. There is no pass-through of an undecoded
payload. -/
def LoadSession (codec : Codec) (cs : CookieStore) (r : Request) : Except Error State :=
  let chunks := collectChunks r cs.Name r.Cookies.length 0
  if chunks.isEmpty then .error ErrNoSessionFound
  else
    let payload := String.join chunks
    match cs.decoder with
    | none => .error "cannot load session: no decoder configured"
    | some dec => codec.Unmarshal dec payload

/-- Decimal value of a list of digit characters. -/
def digitsValue (l : List Char) : Nat :=
  l.foldl (fun acc c => acc * 10 + (c.toNat - 48)) 0

/-! ### A codec and a store to evaluate the definitions on -/

/-- Fields of a payload, split at each bar. -/
def splitBar : List Char → List (List Char)
  | [] => [[]]
  | c :: cs =>
    if c = '|' then [] :: splitBar cs
    else
      match splitBar cs with
      | [] => [[c]]
      | field :: fields => (c :: field) :: fields

/-- A small keyed codec: the payload is the key followed by the three fields,
bar-separated; a state with a bar in a field cannot be encoded, and decoding rejects a
payload that does not start with the decoder's key or does not have three fields. -/
def exampleCodec : Codec where
  Marshal enc st :=
    if '|' ∈ st.Subject.data ∨ '|' ∈ st.User.data ∨ '|' ∈ st.Email.data then
      .error "state cannot be represented"
    else .ok (enc.key ++ "|" ++ st.Subject ++ "|" ++ st.User ++ "|" ++ st.Email)
  Unmarshal dec payload :=
    match splitBar payload.data with
    | [key, subject, user, email] =>
      if key = dec.key.data then
        .ok { Subject := String.mk subject, User := String.mk user, Email := String.mk email }
      else .error "message authentication failed"
    | _ => .error "malformed payload"

/-- An encoder and decoder of `exampleCodec` under the key `k1`. -/
def exampleKey : MarshalUnmarshaler := { kind := "example", key := "k1", issuer := "" }

/-- The store of `TestCookieStore_SaveSession`, with `exampleKey` as encoder and decoder. -/
def exampleStore : CookieStore :=
  { Name := "_pomerium", Domain := "pomerium.io", Secure := true, HTTPOnly := true,
    Expire := 10000000000, encoder := some exampleKey, decoder := some exampleKey }

/-- The same store with a nil encoder, as in the test's "good marshal string directly". -/
def rawStore : CookieStore := { exampleStore with encoder := none }

/-- The state of the test's "good" case. -/
def exampleState : State := { Subject := "", User := "user", Email := "user@domain.com" }

/-- The state of the test's "huge cookie" case: the subject is the hex form of 4097
bytes, 8194 hex digits. -/
def hugeState : State :=
  { Subject := String.mk (List.replicate 8194 'a'), User := "user", Email := "user@domain.com" }

end sessions

namespace proxy

open sessions

/-! ## Names for the parts of a route, used in the proofs -/

/-- The forwarder of a route: the reverse proxy with its transport set. -/
def forwarder (env : Env) (p : Proxy) (policy : Policy) : ReverseProxy :=
  { Destination := policy.Destination, Transport := some (roundTripperFromPolicy env p policy) }

/-- The stages `reverseProxyHandler` adds before its public-access check. -/
def frontStages (env : Env) (p : Proxy) (policy : Policy) : List Middleware :=
  (if policy.AllowWebsockets = true then []
   else [Middleware.TimeoutHandlerFunc
          (if policy.UpstreamTimeout = 0 then p.defaultUpstreamTimeout
           else policy.UpstreamTimeout)
          (policy.Destination.Host ++ " timed out in " ++ env.DurationString
            (if policy.UpstreamTimeout = 0 then p.defaultUpstreamTimeout
             else policy.UpstreamTimeout))]) ++
  (if policy.CORSAllowPreflight = true then [Middleware.CorsBypass (forwarder env p policy)]
   else [])

/-- The four access-control stages. -/
def accessStages (p : Proxy) : List Middleware :=
  [Middleware.RetrieveSession p.sessionLoaders,
   Middleware.StripCookie p.cookieOptions.Name,
   Middleware.AuthenticateSession,
   Middleware.AuthorizeSession]

/-- The header-injection stage, when there is one. -/
def headerStages (policy : Policy) : List Middleware :=
  if policy.SetRequestHeaders = [] then []
  else [Middleware.SetResponseHeaders policy.SetRequestHeaders]

/-- The sub-router of a policy carrying the given stages. -/
def routeOf (env : Env) (p : Proxy) (policy : Policy) (stages : List Middleware) : Subrouter :=
  { Host := policy.Source.Host, Path := "/", Handler := Handler.Proxy (forwarder env p policy),
    Middlewares := stages }

/-! ## An environment, policies and a proxy to evaluate the definitions on -/

/-- An environment in which every key but `not-a-key` builds a signer, a URL is valid
when its host is not empty, and a policy is valid when its destination host is not
empty. -/
def exampleEnv : Env where
  NewAEADCipherFromBase64 s := if s = "" then .error "empty key" else .ok { key := s }
  DecodeString s := (s.toList.map Char.toNat, none)
  ValidateURL u := if u.Host = "" then some "url host is empty" else none
  DeepCopy u := u
  ResolveReference u ref := { u with Path := ref.Path }
  Hostname u := u.Host
  NewES256Signer key issuer :=
    if key = "not-a-key" then .error "invalid key"
    else .ok { kind := "ES256", key := key, issuer := issuer }
  NewHS256Signer key issuer := .ok { kind := "HS256", key := key, issuer := issuer }
  NewCookieLoader o enc :=
    if o.Name = "" then .error "cookie name empty"
    else .ok { Name := o.Name, Domain := o.Domain, Secure := o.Secure, HTTPOnly := o.HTTPOnly,
               Expire := o.Expire, encoder := some enc, decoder := some enc }
  NewTemplates := "templates"
  NewAuthorizeClient name o := (some { name := name, opts := o }, none)
  Validate policy :=
    (policy, if policy.Destination.Host = "" then some "destination is empty" else none)
  NewRouter := { NotFoundHandler := none, skipClean := false, strictSlash := false, routes := [] }
  registerDashboardHandlers _ r :=
    { r with routes :=
        r.routes ++ [Route.HandleFunc "/.pomerium" (Handler.Dashboard "dashboard") []] }
  DurationString d := toString d ++ "ns"
  DefaultTransport := { TLSClientConfig := none, settings := "default" }

/-- A route to `httpbin.internal` behind access control. -/
def examplePolicy : Policy :=
  { Source := { Scheme := "https", Host := "httpbin.corp.example.com", Path := "" }
    Destination := { Scheme := "http", Host := "httpbin.internal", Path := "" }
    TLSSkipVerify := false
    RootCAs := none
    ClientCertificate := none
    TLSServerName := ""
    AllowWebsockets := false
    AllowPublicUnauthenticatedAccess := false
    CORSAllowPreflight := true
    UpstreamTimeout := 0
    SetRequestHeaders := [("X-Route", "httpbin")] }

/-- The same route open to the public. -/
def publicPolicy : Policy :=
  { examplePolicy with AllowPublicUnauthenticatedAccess := true }

/-- A policy that fails validation in `exampleEnv`. -/
def invalidPolicy : Policy :=
  { examplePolicy with Destination := { Scheme := "", Host := "", Path := "" } }

/-- Options with a usable signing key and one route behind access control. -/
def exampleOptions : Options :=
  { SharedKey := "c2hhcmVk"
    CookieSecret := "Y29va2ll"
    AuthenticateURL := { Scheme := "https", Host := "authenticate.corp.example.com", Path := "" }
    AuthorizeURL := { Scheme := "https", Host := "authorize.corp.example.com", Path := "" }
    ForwardAuthURL := none
    SigningKey := "signing-key"
    CookieName := "_pomerium"
    CookieDomain := "corp.example.com"
    CookieSecure := true
    CookieHTTPOnly := true
    CookieExpire := 10000000000
    DefaultUpstreamTimeout := 30000000000
    RefreshCooldown := 0
    Policies := [examplePolicy]
    OverrideCertificateName := ""
    CA := ""
    CAFile := ""
    GRPCClientTimeout := 0
    GRPCClientDNSRoundRobin := false
    GRPCInsecure := false }

/-- Options whose only route is public. -/
def publicOptions : Options := { exampleOptions with Policies := [publicPolicy] }

/-- Options with a public route, a route behind access control, and an invalid policy. -/
def mixedOptions : Options :=
  { exampleOptions with Policies := [publicPolicy, examplePolicy, invalidPolicy] }

/-- A proxy with the given signing key and an empty routing table installed. -/
def exampleProxy (signingKey : String) : Proxy :=
  { SharedKey := "c2hhcmVk"
    sharedCipher := some { key := "c2hhcmVk" }
    authenticateURL := none
    authenticateSigninURL := none
    authenticateSignoutURL := none
    authorizeURL := none
    AuthorizeClient := none
    encoder := none
    cookieOptions :=
      { Name := "_pomerium", Domain := "", Secure := true, HTTPOnly := true, Expire := 0 }
    cookieSecret := []
    defaultUpstreamTimeout := 30000000000
    refreshCooldown := 0
    Handler := some { NotFoundHandler := none, skipClean := false, strictSlash := false,
                      routes := [] }
    sessionStore := none
    sessionLoaders := []
    signingKey := signingKey
    templates := none }

/-- The proxy `New` returns for `exampleOptions` in `exampleEnv`. -/
def newProxy : Proxy := ((New exampleEnv exampleOptions).1).getD (exampleProxy "")

/-- The session encoder `New` builds for `exampleOptions`. -/
def newEncoder : MarshalUnmarshaler :=
  { kind := "HS256", key := "c2hhcmVk", issuer := "authenticate.corp.example.com" }

/-- The cookie store `New` builds for `exampleOptions`. -/
def newCookieStore : CookieStore :=
  { Name := "_pomerium", Domain := "corp.example.com", Secure := true, HTTPOnly := true,
    Expire := 10000000000, encoder := some newEncoder, decoder := some newEncoder }

end proxy

/-! # Theorems -/

/-- Go `len(s) == 0` holds exactly of the empty string. -/
theorem len_eq_zero_iff (s : String) : len s = 0 ↔ s = "" := by
  obtain ⟨l⟩ := s
  cases l with
  | nil => simp [len]
  | cons c cs =>
    constructor
    · intro h; simp [len, String.length] at h
    · intro h; exact absurd (congrArg String.data h) (by simp)

namespace proxy

open sessions

/-! ## What `reverseProxyHandler` returns, case by case -/

/-- A public route: the front stages only, and no error. -/
theorem rph_public_eq (env : Env) (p : Proxy) (r : Router) (policy : Policy)
    (hpub : policy.AllowPublicUnauthenticatedAccess = true) :
    reverseProxyHandler env p r policy =
      (r.attach (routeOf env p policy (frontStages env p policy)), none) := by
  unfold reverseProxyHandler
  cases hw : policy.AllowWebsockets <;> cases hc : policy.CORSAllowPreflight <;>
    by_cases h0 : policy.UpstreamTimeout = 0 <;>
    simp [Subrouter.Use, routeOf, frontStages, forwarder, hpub, hw, hc, h0]

/-- A route behind access control, no signing key. -/
theorem rph_nokey_eq (env : Env) (p : Proxy) (r : Router) (policy : Policy)
    (hpub : policy.AllowPublicUnauthenticatedAccess = false) (hk : p.signingKey = "") :
    reverseProxyHandler env p r policy =
      (r.attach (routeOf env p policy
        (frontStages env p policy ++ accessStages p ++ headerStages policy)), none) := by
  have hlen : len p.signingKey = 0 := (len_eq_zero_iff _).mpr hk
  unfold reverseProxyHandler
  cases hw : policy.AllowWebsockets <;> cases hc : policy.CORSAllowPreflight <;>
    by_cases h0 : policy.UpstreamTimeout = 0 <;>
    by_cases hh : policy.SetRequestHeaders = [] <;>
    simp [Subrouter.Use, routeOf, frontStages, accessStages, headerStages, forwarder,
      hpub, hw, hc, h0, hh, hlen]

/-- A route behind access control, with a signing key a signer is built from. -/
theorem rph_signed_eq (env : Env) (p : Proxy) (r : Router) (policy : Policy)
    (hpub : policy.AllowPublicUnauthenticatedAccess = false) (hk : p.signingKey ≠ "")
    (signer : MarshalUnmarshaler)
    (hs : env.NewES256Signer p.signingKey policy.Destination.Host = .ok signer) :
    reverseProxyHandler env p r policy =
      (r.attach (routeOf env p policy
        (frontStages env p policy ++ accessStages p ++ [Middleware.SignRequest signer] ++
          headerStages policy)), none) := by
  have hlen : len p.signingKey ≠ 0 := fun h => hk ((len_eq_zero_iff _).mp h)
  unfold reverseProxyHandler
  cases hw : policy.AllowWebsockets <;> cases hc : policy.CORSAllowPreflight <;>
    by_cases h0 : policy.UpstreamTimeout = 0 <;>
    by_cases hh : policy.SetRequestHeaders = [] <;>
    simp [Subrouter.Use, routeOf, frontStages, accessStages, headerStages, forwarder,
      hpub, hw, hc, h0, hh, hlen, hs]

/-- A route behind access control, with a signing key no signer is built from: the
error, and the route as it stood when the signer failed. -/
theorem rph_failed_eq (env : Env) (p : Proxy) (r : Router) (policy : Policy)
    (hpub : policy.AllowPublicUnauthenticatedAccess = false) (hk : p.signingKey ≠ "")
    (e : Error)
    (hs : env.NewES256Signer p.signingKey policy.Destination.Host = .error e) :
    reverseProxyHandler env p r policy =
      (r.attach (routeOf env p policy (frontStages env p policy ++ accessStages p)), some e) := by
  have hlen : len p.signingKey ≠ 0 := fun h => hk ((len_eq_zero_iff _).mp h)
  unfold reverseProxyHandler
  cases hw : policy.AllowWebsockets <;> cases hc : policy.CORSAllowPreflight <;>
    by_cases h0 : policy.UpstreamTimeout = 0 <;>
    simp [Subrouter.Use, routeOf, frontStages, accessStages, forwarder,
      hpub, hw, hc, h0, hlen, hs]

/-- In every case the route carries the front stages first, and no timeout stage after
them. -/
theorem rph_shape (env : Env) (p : Proxy) (r : Router) (policy : Policy) :
    ∃ rest : List Middleware,
      (reverseProxyHandler env p r policy).1 =
        r.attach (routeOf env p policy (frontStages env p policy ++ rest)) ∧
      ∀ d msg, Middleware.TimeoutHandlerFunc d msg ∉ rest := by
  cases hpub : policy.AllowPublicUnauthenticatedAccess
  · by_cases hk : p.signingKey = ""
    · refine ⟨accessStages p ++ headerStages policy, ?_, ?_⟩
      · rw [rph_nokey_eq env p r policy hpub hk, List.append_assoc]
      · intro d msg
        unfold accessStages headerStages
        split <;> simp
    · rcases hs : env.NewES256Signer p.signingKey policy.Destination.Host with e | signer
      · refine ⟨accessStages p, ?_, ?_⟩
        · rw [rph_failed_eq env p r policy hpub hk e hs]
        · intro d msg; simp [accessStages]
      · refine ⟨accessStages p ++ [Middleware.SignRequest signer] ++ headerStages policy, ?_, ?_⟩
        · rw [rph_signed_eq env p r policy hpub hk signer hs]
          simp only [List.append_assoc]
        · intro d msg
          unfold accessStages headerStages
          split <;> simp
  · exact ⟨[], by rw [rph_public_eq env p r policy hpub, List.append_nil], by simp⟩

/-- A route behind access control carries one retrieval stage, over the proxy's
session loaders. -/
theorem rph_retrieve (env : Env) (p : Proxy) (r : Router) (policy : Policy)
    (hpub : policy.AllowPublicUnauthenticatedAccess = false) :
    ∃ rp : Subrouter,
      (reverseProxyHandler env p r policy).1 = r.attach rp ∧
      Middleware.RetrieveSession p.sessionLoaders ∈ rp.Middlewares ∧
      ∀ loaders, Middleware.RetrieveSession loaders ∈ rp.Middlewares →
        loaders = p.sessionLoaders := by
  have hfront : ∀ loaders, Middleware.RetrieveSession loaders ∉ frontStages env p policy := by
    intro loaders
    unfold frontStages
    cases policy.AllowWebsockets <;> cases policy.CORSAllowPreflight <;> simp
  have hhdr : ∀ loaders, Middleware.RetrieveSession loaders ∉ headerStages policy := by
    intro loaders
    unfold headerStages
    split <;> simp
  by_cases hk : p.signingKey = ""
  · rw [rph_nokey_eq env p r policy hpub hk]
    refine ⟨_, rfl, ?_, ?_⟩
    · simp [routeOf, accessStages]
    · intro loaders h
      simpa [routeOf, accessStages, hfront, hhdr] using h
  · rcases hs : env.NewES256Signer p.signingKey policy.Destination.Host with e | signer
    · rw [rph_failed_eq env p r policy hpub hk e hs]
      refine ⟨_, rfl, ?_, ?_⟩
      · simp [routeOf, accessStages]
      · intro loaders h
        simpa [routeOf, accessStages, hfront] using h
    · rw [rph_signed_eq env p r policy hpub hk signer hs]
      refine ⟨_, rfl, ?_, ?_⟩
      · simp [routeOf, accessStages]
      · intro loaders h
        simpa [routeOf, accessStages, hfront, hhdr] using h

/-! ## The loop of `UpdatePolicies` -/

/-- A policy that fails validation ends the loop with an error. -/
theorem loop_error_of_invalid (env : Env) (p : Proxy) (pols : List Policy) :
    ∀ r : Router, (∃ policy ∈ pols, (env.Validate policy).2 ≠ none) →
      (UpdatePolicies.loop env p r pols).2 ≠ none := by
  induction pols with
  | nil => intro r h; obtain ⟨_, hmem, _⟩ := h; simp at hmem
  | cons q rest ih =>
    intro r h
    unfold UpdatePolicies.loop
    rcases hv : env.Validate q with ⟨q1, _ | e⟩
    · simp only
      rcases hr : reverseProxyHandler env p r q1 with ⟨r1, _ | e1⟩
      · simp only
        apply ih
        obtain ⟨policy, hmem, hbad⟩ := h
        rcases List.mem_cons.mp hmem with rfl | hmem
        · rw [hv] at hbad; exact absurd rfl hbad
        · exact ⟨policy, hmem, hbad⟩
      · simp
    · simp

/-- With a signing key no signer is built from, valid policies of which one is not
public end the loop with the signer's error for one of them. -/
theorem loop_error_of_signer (env : Env) (p : Proxy) (pols : List Policy)
    (hkey : p.signingKey ≠ "")
    (hfail : ∀ host, ∃ e, env.NewES256Signer p.signingKey host = .error e) :
    ∀ r : Router,
      (∀ policy ∈ pols, (env.Validate policy).2 = none) →
      (∃ policy ∈ pols, (env.Validate policy).1.AllowPublicUnauthenticatedAccess = false) →
      ∃ e, (UpdatePolicies.loop env p r pols).2 = some e ∧
        ∃ policy ∈ pols,
          env.NewES256Signer p.signingKey (env.Validate policy).1.Destination.Host
            = .error e := by
  induction pols with
  | nil => intro r _ h; obtain ⟨_, hmem, _⟩ := h; simp at hmem
  | cons q rest ih =>
    intro r hvalid h
    have hq := hvalid q (List.mem_cons_self _ _)
    rcases hv : env.Validate q with ⟨q1, err⟩
    rw [hv] at hq
    simp only at hq
    subst hq
    cases hpub : q1.AllowPublicUnauthenticatedAccess
    · obtain ⟨e, he⟩ := hfail q1.Destination.Host
      refine ⟨e, ?_, q, List.mem_cons_self _ _, by rw [hv]; exact he⟩
      simp [UpdatePolicies.loop, hv, rph_failed_eq env p r q1 hpub hkey e he]
    · have hrest : ∃ policy ∈ rest,
          (env.Validate policy).1.AllowPublicUnauthenticatedAccess = false := by
        obtain ⟨policy, hmem, hnp⟩ := h
        rcases List.mem_cons.mp hmem with rfl | hmem
        · rw [hv] at hnp
          simp only at hnp
          rw [hpub] at hnp
          exact absurd hnp (by decide)
        · exact ⟨policy, hmem, hnp⟩
      obtain ⟨e, he, policy, hmem, hs⟩ :=
        ih (r.attach (routeOf env p q1 (frontStages env p q1)))
          (fun policy hm => hvalid policy (List.mem_cons_of_mem _ hm)) hrest
      refine ⟨e, ?_, policy, List.mem_cons_of_mem _ hmem, hs⟩
      simp [UpdatePolicies.loop, hv, rph_public_eq env p r q1 hpub, he]

/-- An error of the loop is the error of `UpdatePolicies`, and the proxy stays as it
was. -/
theorem UpdatePolicies_of_loop_error (env : Env) (p : Proxy) (opts : Options) (e : Error)
    (h : (UpdatePolicies.loop env p (UpdatePolicies.baseRouter env p opts) opts.Policies).2
      = some e) :
    UpdatePolicies env p opts = (p, some e) := by
  rcases hl : UpdatePolicies.loop env p (UpdatePolicies.baseRouter env p opts) opts.Policies
    with ⟨r1, _ | e1⟩
  · rw [hl] at h; simp at h
  · rw [hl] at h
    simp only [Option.some.injEq] at h
    simp [UpdatePolicies, hl, h]

/-- Go `UpdatePolicies` writes no field of the proxy but `Handler`: the session loaders
and the session store stay. -/
theorem UpdatePolicies_sessionLoaders (env : Env) (p q : Proxy) (opts : Options)
    (err : Option Error) (h : UpdatePolicies env p opts = (q, err)) :
    q.sessionLoaders = p.sessionLoaders ∧ q.sessionStore = p.sessionStore := by
  rcases hl : UpdatePolicies.loop env p (UpdatePolicies.baseRouter env p opts) opts.Policies
    with ⟨r1, _ | e⟩ <;> simp [UpdatePolicies, hl] at h <;> obtain ⟨rfl, _⟩ := h <;> simp

/-! ## The claims about `proxy.go` -/

/-- C1: whenever some policy of the options fails `Validate`, `UpdatePolicies` returns
an error and leaves the proxy, its `Handler` included, exactly as it was before the
call: no table holding only the policies in front of the invalid one is installed. -/
theorem UpdatePolicies_invalid_policy (env : Env) (p : Proxy) (opts : Options)
    (h : ∃ policy ∈ opts.Policies, (env.Validate policy).2 ≠ none) :
    (UpdatePolicies env p opts).2 ≠ none ∧
    (UpdatePolicies env p opts).1.Handler = p.Handler ∧
    (UpdatePolicies env p opts).1 = p := by
  have hne := loop_error_of_invalid env p opts.Policies (UpdatePolicies.baseRouter env p opts) h
  obtain ⟨e, he⟩ := Option.ne_none_iff_exists'.mp hne
  rw [UpdatePolicies_of_loop_error env p opts e he]
  simp

/-- C1 at `mixedOptions`, whose third policy is invalid and whose first two are valid:
the call fails and the installed table stays. -/
theorem UpdatePolicies_invalid_policy_witness :
    (∃ policy ∈ mixedOptions.Policies, (exampleEnv.Validate policy).2 ≠ none) ∧
    (UpdatePolicies exampleEnv (exampleProxy "signing-key") mixedOptions).2 =
      some "proxy: invalid policy destination is empty" ∧
    (UpdatePolicies exampleEnv (exampleProxy "signing-key") mixedOptions).1.Handler =
      (exampleProxy "signing-key").Handler :=
  have h : ∃ policy ∈ mixedOptions.Policies, (exampleEnv.Validate policy).2 ≠ none :=
    ⟨invalidPolicy, by simp [mixedOptions], by decide⟩
  ⟨h, by rfl,
    (UpdatePolicies_invalid_policy exampleEnv (exampleProxy "signing-key") mixedOptions h).2.1⟩

/-- C2, as the code has it: with a non-empty signing key from which no signer is built,
and options whose policies are all valid and of which at least one is not public,
`UpdatePolicies` returns an error, the signer's error for one of the policies, and
leaves the proxy, its `Handler` included, as it was. -/
theorem UpdatePolicies_signer_failure (env : Env) (p : Proxy) (opts : Options)
    (hkey : p.signingKey ≠ "")
    (hfail : ∀ host, ∃ e, env.NewES256Signer p.signingKey host = .error e)
    (hvalid : ∀ policy ∈ opts.Policies, (env.Validate policy).2 = none)
    (hnp : ∃ policy ∈ opts.Policies,
      (env.Validate policy).1.AllowPublicUnauthenticatedAccess = false) :
    (∃ e, (UpdatePolicies env p opts).2 = some e ∧
      ∃ policy ∈ opts.Policies,
        env.NewES256Signer p.signingKey (env.Validate policy).1.Destination.Host
          = .error e) ∧
    (UpdatePolicies env p opts).1.Handler = p.Handler ∧
    (UpdatePolicies env p opts).1 = p := by
  obtain ⟨e, he, hsrc⟩ := loop_error_of_signer env p opts.Policies hkey hfail
    (UpdatePolicies.baseRouter env p opts) hvalid hnp
  rw [UpdatePolicies_of_loop_error env p opts e he]
  exact ⟨⟨e, rfl, hsrc⟩, rfl, rfl⟩

/-- C2 at `exampleOptions`, whose one policy is valid and behind access control, for a
proxy whose signing key is `not-a-key`. -/
theorem UpdatePolicies_signer_failure_witness :
    (exampleProxy "not-a-key").signingKey ≠ "" ∧
    (∀ host, ∃ e, exampleEnv.NewES256Signer (exampleProxy "not-a-key").signingKey host
      = .error e) ∧
    (∀ policy ∈ exampleOptions.Policies, (exampleEnv.Validate policy).2 = none) ∧
    (UpdatePolicies exampleEnv (exampleProxy "not-a-key") exampleOptions).2
      = some "invalid key" ∧
    (UpdatePolicies exampleEnv (exampleProxy "not-a-key") exampleOptions).1.Handler =
      (exampleProxy "not-a-key").Handler :=
  have hkey : (exampleProxy "not-a-key").signingKey ≠ "" := by decide
  have hfail : ∀ host, ∃ e,
      exampleEnv.NewES256Signer (exampleProxy "not-a-key").signingKey host = .error e :=
    fun _ => ⟨"invalid key", rfl⟩
  have hvalid : ∀ policy ∈ exampleOptions.Policies, (exampleEnv.Validate policy).2 = none := by
    simp [exampleOptions]; decide
  ⟨hkey, hfail, hvalid, by rfl,
    (UpdatePolicies_signer_failure exampleEnv (exampleProxy "not-a-key") exampleOptions
      hkey hfail hvalid ⟨examplePolicy, by simp [exampleOptions], rfl⟩).2.1⟩

/-- C2 as stated fails at `publicOptions`: the signing key is not empty, no signer is
built from it, the one policy is valid, and yet `UpdatePolicies` returns no error and
installs a new table, since the policy is public and no signer is asked for. -/
theorem UpdatePolicies_signer_failure_counterexample :
    (exampleProxy "not-a-key").signingKey ≠ "" ∧
    (∀ host, ∃ e, exampleEnv.NewES256Signer (exampleProxy "not-a-key").signingKey host
      = .error e) ∧
    publicOptions.Policies ≠ [] ∧
    (∀ policy ∈ publicOptions.Policies, (exampleEnv.Validate policy).2 = none) ∧
    (UpdatePolicies exampleEnv (exampleProxy "not-a-key") publicOptions).2 = none ∧
    (UpdatePolicies exampleEnv (exampleProxy "not-a-key") publicOptions).1.Handler ≠
      (exampleProxy "not-a-key").Handler :=
  ⟨by decide, fun _ => ⟨"invalid key", rfl⟩, by decide, by simp [publicOptions]; decide,
    by rfl, by decide⟩

/-- C3: for a policy with `AllowPublicUnauthenticatedAccess` set, `reverseProxyHandler`
returns no error whatever the signing key, and the route it registers carries exactly
the optional timeout stage and the optional CORS-bypass stage, in that order, in front
of the forwarder: no retrieval, cookie-stripping, authenticate, authorize, signing or
header-injection stage. -/
theorem reverseProxyHandler_public (env : Env) (p : Proxy) (r : Router) (policy : Policy)
    (hpub : policy.AllowPublicUnauthenticatedAccess = true) :
    (reverseProxyHandler env p r policy).2 = none ∧
    ∃ rp : Subrouter,
      (reverseProxyHandler env p r policy).1 = r.attach rp ∧
      rp.Host = policy.Source.Host ∧
      rp.Handler = Handler.Proxy
        { Destination := policy.Destination,
          Transport := some (roundTripperFromPolicy env p policy) } ∧
      rp.Middlewares =
        (if policy.AllowWebsockets = true then []
         else [Middleware.TimeoutHandlerFunc
                (if policy.UpstreamTimeout = 0 then p.defaultUpstreamTimeout
                 else policy.UpstreamTimeout)
                (policy.Destination.Host ++ " timed out in " ++ env.DurationString
                  (if policy.UpstreamTimeout = 0 then p.defaultUpstreamTimeout
                   else policy.UpstreamTimeout))]) ++
        (if policy.CORSAllowPreflight = true then
          [Middleware.CorsBypass
            { Destination := policy.Destination,
              Transport := some (roundTripperFromPolicy env p policy) }]
         else []) ∧
      ∀ mw ∈ rp.Middlewares,
        (∃ d msg, mw = Middleware.TimeoutHandlerFunc d msg) ∨
        (∃ target, mw = Middleware.CorsBypass target) := by
  rw [rph_public_eq env p r policy hpub]
  refine ⟨rfl, _, rfl, rfl, rfl, rfl, ?_⟩
  intro mw hmw
  simp only [routeOf, frontStages, List.mem_append] at hmw
  rcases hmw with h | h
  · split at h
    · simp at h
    · left; exact ⟨_, _, List.mem_singleton.mp h⟩
  · split at h
    · right; exact ⟨_, List.mem_singleton.mp h⟩
    · simp at h

/-- C3 at `publicPolicy`, for a proxy whose signing key builds no signer: no error, and
the two front stages only. -/
theorem reverseProxyHandler_public_witness :
    publicPolicy.AllowPublicUnauthenticatedAccess = true ∧
    (reverseProxyHandler exampleEnv (exampleProxy "not-a-key") exampleEnv.NewRouter
      publicPolicy).2 = none ∧
    ∃ rp : Subrouter,
      (reverseProxyHandler exampleEnv (exampleProxy "not-a-key") exampleEnv.NewRouter
        publicPolicy).1 = exampleEnv.NewRouter.attach rp ∧
      rp.Middlewares =
        [Middleware.TimeoutHandlerFunc 30000000000
           "httpbin.internal timed out in 30000000000ns",
         Middleware.CorsBypass (forwarder exampleEnv (exampleProxy "not-a-key") publicPolicy)] :=
  ⟨rfl,
    (reverseProxyHandler_public exampleEnv (exampleProxy "not-a-key") exampleEnv.NewRouter
      publicPolicy rfl).1,
    (reverseProxyHandler_public exampleEnv (exampleProxy "not-a-key") exampleEnv.NewRouter
      publicPolicy rfl).2.elim fun rp h => ⟨rp, h.1, h.2.2.2.1.trans (by rfl)⟩⟩

/-- C4: for a policy without public access for which `reverseProxyHandler` returns no
error, the stages on the route are, in order: the timeout stage unless websockets are
allowed; the CORS-bypass stage if `CORSAllowPreflight`; session retrieval, cookie
stripping, authenticate, authorize; the signing stage if the signing key is not empty
(its signer then exists); the header-injection stage if the header map is not empty. -/
theorem reverseProxyHandler_stage_order (env : Env) (p : Proxy) (r : Router) (policy : Policy)
    (hpub : policy.AllowPublicUnauthenticatedAccess = false)
    (hok : (reverseProxyHandler env p r policy).2 = none) :
    ∃ rp : Subrouter,
      (reverseProxyHandler env p r policy).1 = r.attach rp ∧
      rp.Host = policy.Source.Host ∧
      rp.Handler = Handler.Proxy
        { Destination := policy.Destination,
          Transport := some (roundTripperFromPolicy env p policy) } ∧
      rp.Middlewares =
        (if policy.AllowWebsockets = true then []
         else [Middleware.TimeoutHandlerFunc
                (if policy.UpstreamTimeout = 0 then p.defaultUpstreamTimeout
                 else policy.UpstreamTimeout)
                (policy.Destination.Host ++ " timed out in " ++ env.DurationString
                  (if policy.UpstreamTimeout = 0 then p.defaultUpstreamTimeout
                   else policy.UpstreamTimeout))]) ++
        (if policy.CORSAllowPreflight = true then
          [Middleware.CorsBypass
            { Destination := policy.Destination,
              Transport := some (roundTripperFromPolicy env p policy) }]
         else []) ++
        [Middleware.RetrieveSession p.sessionLoaders,
         Middleware.StripCookie p.cookieOptions.Name,
         Middleware.AuthenticateSession,
         Middleware.AuthorizeSession] ++
        (if p.signingKey = "" then []
         else match env.NewES256Signer p.signingKey policy.Destination.Host with
           | .ok signer => [Middleware.SignRequest signer]
           | .error _ => []) ++
        (if policy.SetRequestHeaders = [] then []
         else [Middleware.SetResponseHeaders policy.SetRequestHeaders]) ∧
      (p.signingKey ≠ "" →
        ∃ signer, env.NewES256Signer p.signingKey policy.Destination.Host = .ok signer) := by
  by_cases hk : p.signingKey = ""
  · rw [rph_nokey_eq env p r policy hpub hk]
    refine ⟨_, rfl, rfl, rfl, ?_, fun h => absurd hk h⟩
    simp [routeOf, frontStages, accessStages, headerStages, forwarder, hk]
  · rcases hs : env.NewES256Signer p.signingKey policy.Destination.Host with e | signer
    · rw [rph_failed_eq env p r policy hpub hk e hs] at hok
      simp at hok
    · rw [rph_signed_eq env p r policy hpub hk signer hs]
      refine ⟨_, rfl, rfl, rfl, ?_, fun _ => ⟨signer, rfl⟩⟩
      simp [routeOf, frontStages, accessStages, headerStages, forwarder, hk]

/-- C4 at `examplePolicy`, for a proxy with a usable signing key: all eight stages, in
order. -/
theorem reverseProxyHandler_stage_order_witness :
    examplePolicy.AllowPublicUnauthenticatedAccess = false ∧
    (reverseProxyHandler exampleEnv (exampleProxy "signing-key") exampleEnv.NewRouter
      examplePolicy).2 = none ∧
    ∃ rp : Subrouter,
      (reverseProxyHandler exampleEnv (exampleProxy "signing-key") exampleEnv.NewRouter
        examplePolicy).1 = exampleEnv.NewRouter.attach rp ∧
      rp.Middlewares =
        [Middleware.TimeoutHandlerFunc 30000000000
           "httpbin.internal timed out in 30000000000ns",
         Middleware.CorsBypass
           (forwarder exampleEnv (exampleProxy "signing-key") examplePolicy),
         Middleware.RetrieveSession [],
         Middleware.StripCookie "_pomerium",
         Middleware.AuthenticateSession,
         Middleware.AuthorizeSession,
         Middleware.SignRequest
           { kind := "ES256", key := "signing-key", issuer := "httpbin.internal" },
         Middleware.SetResponseHeaders [("X-Route", "httpbin")]] :=
  ⟨rfl, by rfl,
    (reverseProxyHandler_stage_order exampleEnv (exampleProxy "signing-key")
      exampleEnv.NewRouter examplePolicy rfl (by rfl)).elim
      fun rp h => ⟨rp, h.1, h.2.2.2.1.trans (by rfl)⟩⟩

/-- C5: `roundTripperFromPolicy` sets a TLS client configuration on the transport exactly
when at least one of `TLSSkipVerify`, `RootCAs`, `ClientCertificate`, `TLSServerName` is
set; that configuration then holds the policy's four values (the client certificate as
the only certificate) and the zero value in every other field; otherwise the transport
keeps the TLS configuration of the default transport. The other settings are those of
the default transport, under the one metrics decorator. -/
theorem roundTripperFromPolicy_tls (env : Env) (p : Proxy) (policy : Policy) :
    (roundTripperFromPolicy env p policy).base.TLSClientConfig =
      (if policy.TLSSkipVerify = true ∨ policy.RootCAs ≠ none ∨
          policy.ClientCertificate ≠ none ∨ policy.TLSServerName ≠ "" then
        some { InsecureSkipVerify := policy.TLSSkipVerify
               RootCAs := policy.RootCAs
               Certificates := policy.ClientCertificate.toList
               ServerName := policy.TLSServerName
               NextProtos := []
               CipherSuites := []
               MinVersion := 0
               MaxVersion := 0 }
      else env.DefaultTransport.TLSClientConfig) ∧
    (roundTripperFromPolicy env p policy).base.settings = env.DefaultTransport.settings ∧
    (roundTripperFromPolicy env p policy).chain =
      [Tripper.HTTPMetricsRoundTripper "proxy" policy.Destination.Host] := by
  unfold roundTripperFromPolicy
  cases policy.TLSSkipVerify <;> cases policy.RootCAs <;> cases policy.ClientCertificate <;>
    by_cases hn : policy.TLSServerName = "" <;> simp [hn]

/-- C6: the route `reverseProxyHandler` registers, whether or not it then fails, carries
a timeout stage exactly when `AllowWebsockets` is false; that stage is then the first
one, every timeout stage on the route has as duration the policy's `UpstreamTimeout`
when that is not zero and the proxy's default otherwise, and its message is the
destination host, " timed out in ", and that same duration. -/
theorem reverseProxyHandler_timeout (env : Env) (p : Proxy) (r : Router) (policy : Policy) :
    ∃ rp : Subrouter,
      (reverseProxyHandler env p r policy).1 = r.attach rp ∧
      rp.Host = policy.Source.Host ∧
      ((∃ d msg, Middleware.TimeoutHandlerFunc d msg ∈ rp.Middlewares) ↔
        policy.AllowWebsockets = false) ∧
      (policy.AllowWebsockets = false →
        rp.Middlewares.head? = some (Middleware.TimeoutHandlerFunc
          (if policy.UpstreamTimeout ≠ 0 then policy.UpstreamTimeout
           else p.defaultUpstreamTimeout)
          (policy.Destination.Host ++ " timed out in " ++ env.DurationString
            (if policy.UpstreamTimeout ≠ 0 then policy.UpstreamTimeout
             else p.defaultUpstreamTimeout)))) ∧
      (∀ d msg, Middleware.TimeoutHandlerFunc d msg ∈ rp.Middlewares →
        d = (if policy.UpstreamTimeout ≠ 0 then policy.UpstreamTimeout
             else p.defaultUpstreamTimeout) ∧
        msg = policy.Destination.Host ++ " timed out in " ++ env.DurationString d) := by
  obtain ⟨rest, heq, hrest⟩ := rph_shape env p r policy
  rw [heq]
  refine ⟨_, rfl, rfl, ?_⟩
  cases hw : policy.AllowWebsockets <;> cases hc : policy.CORSAllowPreflight <;>
    by_cases h0 : policy.UpstreamTimeout = 0 <;>
    simp [routeOf, frontStages, hw, hc, h0, hrest]

/-- C9: a proxy returned by `New` has as session loaders exactly the cookie store built
by `NewCookieLoader`, then the header store named "Pomerium", then the query-parameter
store named "pomerium_session", all three over the HS256 encoder; that cookie store is
also its session store; and the retrieval stage of every route behind access control
that `reverseProxyHandler` builds for this proxy is over exactly that chain. -/
theorem New_sessionLoaders (env : Env) (opts : Options) (p : Proxy)
    (hnew : (New env opts).1 = some p) :
    ∃ (cookieStore : CookieStore) (encoder : MarshalUnmarshaler),
      env.NewHS256Signer opts.SharedKey opts.AuthenticateURL.Host = .ok encoder ∧
      env.NewCookieLoader
        { Name := opts.CookieName, Domain := opts.CookieDomain, Secure := opts.CookieSecure,
          HTTPOnly := opts.CookieHTTPOnly, Expire := opts.CookieExpire } encoder
        = .ok cookieStore ∧
      p.sessionStore = some cookieStore ∧
      p.sessionLoaders =
        [SessionLoader.CookieLoader cookieStore,
         SessionLoader.HeaderStore encoder "Pomerium",
         SessionLoader.QueryParamStore encoder "pomerium_session"] ∧
      ∀ (r : Router) (policy : Policy), policy.AllowPublicUnauthenticatedAccess = false →
        ∃ rp : Subrouter,
          (reverseProxyHandler env p r policy).1 = r.attach rp ∧
          Middleware.RetrieveSession
            [SessionLoader.CookieLoader cookieStore,
             SessionLoader.HeaderStore encoder "Pomerium",
             SessionLoader.QueryParamStore encoder "pomerium_session"] ∈ rp.Middlewares ∧
          ∀ loaders, Middleware.RetrieveSession loaders ∈ rp.Middlewares →
            loaders =
              [SessionLoader.CookieLoader cookieStore,
               SessionLoader.HeaderStore encoder "Pomerium",
               SessionLoader.QueryParamStore encoder "pomerium_session"] := by
  unfold New at hnew
  split at hnew
  · simp at hnew
  · split at hnew
    · simp at hnew
    · rename_i encoder henc
      dsimp only at hnew
      split at hnew
      · simp at hnew
      · rename_i cookieStore hcs
        split at hnew
        · simp at hnew
        · rename_i p1 hup
          simp only [Option.some.injEq] at hnew
          have hpres := UpdatePolicies_sessionLoaders env _ _ opts _ hup
          simp only at hpres
          have hl : p.sessionLoaders =
              [SessionLoader.CookieLoader cookieStore,
               SessionLoader.HeaderStore encoder "Pomerium",
               SessionLoader.QueryParamStore encoder "pomerium_session"] := by
            rw [← hnew]; exact hpres.1
          have hst : p.sessionStore = some cookieStore := by
            rw [← hnew]; exact hpres.2
          refine ⟨cookieStore, encoder, henc, hcs, hst, hl, ?_⟩
          intro r policy hpub
          have := rph_retrieve env p r policy hpub
          rw [hl] at this
          exact this

/-- C9 at `exampleOptions`: `New` returns `newProxy`, whose chain is the cookie store,
the "Pomerium" header store and the "pomerium_session" query-parameter store. -/
theorem New_sessionLoaders_witness :
    (New exampleEnv exampleOptions).1 = some newProxy ∧
    newProxy.sessionLoaders =
      [SessionLoader.CookieLoader newCookieStore,
       SessionLoader.HeaderStore newEncoder "Pomerium",
       SessionLoader.QueryParamStore newEncoder "pomerium_session"] ∧
    ∃ (cookieStore : CookieStore) (encoder : MarshalUnmarshaler),
      newProxy.sessionStore = some cookieStore ∧
      newProxy.sessionLoaders =
        [SessionLoader.CookieLoader cookieStore,
         SessionLoader.HeaderStore encoder "Pomerium",
         SessionLoader.QueryParamStore encoder "pomerium_session"] :=
  ⟨by rfl, by rfl,
    (New_sessionLoaders exampleEnv exampleOptions newProxy (by rfl)).elim fun cookieStore h =>
      h.elim fun encoder h => ⟨cookieStore, encoder, h.2.2.1, h.2.2.2.1⟩⟩

/-- C10: `ValidateOptions` returns nil exactly when the shared key and the cookie secret
each yield an AEAD cipher, the authenticate and the authorize URL each pass
`ValidateURL`, and the signing key is empty or yields an ES256 signer; and whenever it
returns an error, `New` returns that error and no proxy. -/
theorem ValidateOptions_iff (env : Env) (o : Options) :
    (ValidateOptions env o = none ↔
      (∃ c, env.NewAEADCipherFromBase64 o.SharedKey = .ok c) ∧
      (∃ c, env.NewAEADCipherFromBase64 o.CookieSecret = .ok c) ∧
      env.ValidateURL o.AuthenticateURL = none ∧
      env.ValidateURL o.AuthorizeURL = none ∧
      (o.SigningKey = "" ∨ ∃ signer, env.NewES256Signer o.SigningKey "" = .ok signer)) ∧
    (∀ err, ValidateOptions env o = some err → New env o = (none, some err)) := by
  constructor
  · unfold ValidateOptions
    rcases env.NewAEADCipherFromBase64 o.SharedKey with e1 | c1
    · simp
    rcases env.NewAEADCipherFromBase64 o.CookieSecret with e2 | c2
    · simp
    rcases env.ValidateURL o.AuthenticateURL with _ | e3
    swap
    · simp
    rcases env.ValidateURL o.AuthorizeURL with _ | e4
    swap
    · simp
    rw [← len_eq_zero_iff]
    by_cases hlen : len o.SigningKey = 0
    · simp [hlen]
    · rcases env.NewES256Signer o.SigningKey "" with e5 | s
      · simp [hlen]
      · simp [hlen]
  · intro err h
    unfold New
    simp [h]

end proxy

namespace sessions

/-! ## Chunking and reassembly -/


/-- The digit character of `k` has value `k`. -/
theorem digitChar_value (k : Nat) (hk : k < 10) : (Nat.digitChar k).toNat - 48 = k := by
  interval_cases k <;> rfl

/-- The accumulator of `Nat.toDigitsCore` ends up behind the digits. -/
theorem toDigitsCore_append (b : Nat) : ∀ (f n : Nat) (ds : List Char),
    Nat.toDigitsCore b f n ds = Nat.toDigitsCore b f n [] ++ ds := by
  intro f
  induction f with
  | zero => intro n ds; simp [Nat.toDigitsCore]
  | succ f ih =>
    intro n ds
    simp only [Nat.toDigitsCore]
    split
    · simp
    · rw [ih (n / b) (Nat.digitChar (n % b) :: ds), ih (n / b) [Nat.digitChar (n % b)]]
      simp

/-- Value of a digit list with one more digit. -/
theorem digitsValue_append_singleton (l : List Char) (c : Char) :
    digitsValue (l ++ [c]) = digitsValue l * 10 + (c.toNat - 48) := by
  simp [digitsValue, List.foldl_append]

/-- With enough fuel the digits of `n` have value `n`. -/
theorem digitsValue_toDigitsCore : ∀ (f n : Nat), n < f →
    digitsValue (Nat.toDigitsCore 10 f n []) = n := by
  intro f
  induction f with
  | zero => intro n h; omega
  | succ f ih =>
    intro n h
    simp only [Nat.toDigitsCore]
    split
    · rename_i h0
      have hn : n < 10 := by omega
      have : n % 10 = n := Nat.mod_eq_of_lt hn
      simp [digitsValue, this, digitChar_value n hn]
    · rename_i h0
      rw [toDigitsCore_append, digitsValue_append_singleton, ih (n / 10) (by omega),
        digitChar_value (n % 10) (Nat.mod_lt _ (by omega))]
      omega

/-- Distinct numbers print differently. -/
theorem toString_nat_injective (i j : Nat) (h : toString i = toString j) : i = j := by
  have h1 : (Nat.toDigits 10 i) = (Nat.toDigits 10 j) := by
    have := congrArg String.data h
    simpa [toString, Nat.repr] using this
  have hi := digitsValue_toDigitsCore (i + 1) i (by omega)
  have hj := digitsValue_toDigitsCore (j + 1) j (by omega)
  unfold Nat.toDigits at h1
  rw [h1] at hi
  omega

/-- Distinct chunk numbers give distinct cookie names. -/
theorem chunkName_injective (name : String) (i j : Nat)
    (h : chunkName name i = chunkName name j) : i = j := by
  unfold chunkName at h
  have key : ∀ k : Nat, name ≠ name ++ "_" ++ toString k := by
    intro k hk
    have := congrArg String.length hk
    simp only [String.length_append] at this
    have h1 : "_".length = 1 := rfl
    omega
  split at h <;> split at h
  · omega
  · exact absurd h (key j)
  · exact absurd h.symm (key i)
  · apply toString_nat_injective
    have := congrArg String.data h
    simp only [String.data_append, List.append_assoc] at this
    have := List.append_cancel_left this
    have := List.append_cancel_left this
    exact String.ext this



/-- Adding cookies to a request appends their names and values. -/
theorem replay_cookies_aux (cookies : List Cookie) : ∀ r : Request,
    (cookies.foldl Request.AddCookie r).Cookies =
      r.Cookies ++ cookies.map (fun c => (c.Name, c.Value)) := by
  induction cookies with
  | nil => intro r; simp
  | cons c rest ih => intro r; simp [List.foldl_cons, ih, Request.AddCookie]

/-- The replayed request carries the emitted cookies, in order. -/
theorem replay_cookies (cookies : List Cookie) :
    (replay cookies).Cookies = cookies.map (fun c => (c.Name, c.Value)) := by
  simp [replay, replay_cookies_aux]

/-- The chunks of a list, put together, are the list. -/
theorem chunkList_flatten (n : Nat) (hn : 0 < n) : ∀ (fuel : Nat) (l : List Char),
    l.length ≤ fuel → (chunkList n fuel l).flatten = l := by
  intro fuel
  induction fuel with
  | zero =>
    intro l h
    have : l = [] := List.length_eq_zero.mp (by omega)
    simp [chunkList, this]
  | succ fuel ih =>
    intro l h
    cases l with
    | nil => simp [chunkList]
    | cons c cs =>
      simp only [chunkList, List.flatten_cons]
      rw [ih ((c :: cs).drop n) (by simp only [List.length_drop, List.length_cons] at h ⊢; omega)]
      exact List.take_append_drop n (c :: cs)

/-- The chunks of a payload, joined, are the payload. -/
theorem join_chunk (n : Nat) (hn : 0 < n) (s : String) : String.join (chunk n s) = s := by
  apply String.ext
  rw [String.data_join]
  simp only [chunk, List.map_map]
  have : (String.data ∘ String.mk) = (id : List Char → List Char) := by funext l; rfl
  rw [this, List.map_id]
  exact chunkList_flatten n hn (len s) s.data (le_refl _)

/-- A list longer than the chunk size has at least two chunks. -/
theorem chunkList_length_two (n : Nat) (hn : 0 < n) (fuel : Nat) (l : List Char)
    (hl : n < l.length) (hf : l.length ≤ fuel) : 2 ≤ (chunkList n fuel l).length := by
  match fuel, l, hf with
  | fuel + 1, c :: cs, hf =>
    simp only [chunkList, List.length_cons]
    have hd : ((c :: cs).drop n).length = (c :: cs).length - n := List.length_drop _ _
    match fuel, hdl : (c :: cs).drop n with
    | 0, _ => simp only [List.length_cons] at hf hl; omega
    | fuel + 1, [] => rw [hdl] at hd; simp only [List.length_nil] at hd; omega
    | fuel + 1, d :: ds => simp [chunkList]
  | 0, c :: cs, hf => simp at hf
  | _, [], _ => simp at hl

/-- Among the emitted cookies, the one named after chunk `i` holds chunk `i`. -/
theorem find_emitChunks (cs : CookieStore) : ∀ (chunks : List String) (start i : Nat)
    (_ : start ≤ i) (hhi : i - start < chunks.length),
    ((emitChunks cs start chunks).map (fun c => (c.Name, c.Value))).find?
        (fun c => c.1 = chunkName cs.Name i) =
      some (chunkName cs.Name i, chunks.get ⟨i - start, hhi⟩) := by
  intro chunks
  induction chunks with
  | nil => intro start i hlo hhi; simp at hhi
  | cons c rest ih =>
    intro start i hlo hhi
    simp only [emitChunks, List.map_cons, makeCookie]
    by_cases heq : start = i
    · subst heq
      simp [List.find?_cons]
    · have hne : ¬ chunkName cs.Name start = chunkName cs.Name i :=
        fun h => heq (chunkName_injective _ _ _ h)
      simp only [List.find?_cons, hne, decide_False]
      have hhi2 : i - (start + 1) < rest.length := by
        simp only [List.length_cons] at hhi; omega
      rw [ih (start + 1) i (by omega) hhi2]
      have : i - start = (i - (start + 1)) + 1 := by omega
      simp [this]

/-- From the replayed request the chunks are collected back, in order. -/
theorem collectChunks_emit (cs : CookieStore) (chunks : List String) :
    ∀ (fuel i : Nat), i + fuel = chunks.length →
      collectChunks (replay (emitChunks cs 0 chunks)) cs.Name fuel i = chunks.drop i := by
  intro fuel
  induction fuel with
  | zero =>
    intro i h
    simp only [collectChunks]
    rw [List.drop_of_length_le (by omega)]
  | succ fuel ih =>
    intro i h
    have hi : i - 0 < chunks.length := by omega
    simp only [collectChunks, Request.Cookie, replay_cookies]
    rw [find_emitChunks cs chunks 0 i (Nat.zero_le _) hi]
    simp only
    have := ih (i + 1) (by omega)
    simp only [replay_cookies] at this
    rw [this]
    have hi2 : i < chunks.length := by omega
    rw [List.drop_eq_getElem_cons hi2]
    simp


/-- One cookie per chunk. -/
theorem emitChunks_length (cs : CookieStore) : ∀ (chunks : List String) (start : Nat),
    (emitChunks cs start chunks).length = chunks.length := by
  intro chunks
  induction chunks with
  | nil => intro start; simp [emitChunks]
  | cons c rest ih => intro start; simp [emitChunks, ih]

/-- Loading the replay of emitted chunks decodes their concatenation. -/
theorem LoadSession_emitChunks (codec : Codec) (cs : CookieStore) (chunks : List String)
    (hne : chunks ≠ []) :
    LoadSession codec cs (replay (emitChunks cs 0 chunks)) =
      match cs.decoder with
      | none => .error "cannot load session: no decoder configured"
      | some dec => codec.Unmarshal dec (String.join chunks) := by
  have hlen : (replay (emitChunks cs 0 chunks)).Cookies.length = chunks.length := by
    rw [replay_cookies, List.length_map, emitChunks_length]
  have hcol := collectChunks_emit cs chunks chunks.length 0 (by omega)
  unfold LoadSession
  rw [hlen, hcol, List.drop_zero]
  have : chunks.isEmpty = false := by
    cases chunks with
    | nil => exact absurd rfl hne
    | cons _ _ => rfl
  cases cs.decoder <;> simp [this]

/-- No chunk is longer than the chunk size. -/
theorem chunkList_le (n : Nat) : ∀ (fuel : Nat) (l : List Char),
    ∀ c ∈ chunkList n fuel l, c.length ≤ n := by
  intro fuel
  induction fuel with
  | zero => intro l c hc; simp [chunkList] at hc
  | succ fuel ih =>
    intro l c hc
    cases l with
    | nil => simp [chunkList] at hc
    | cons d ds =>
      simp only [chunkList, List.mem_cons] at hc
      rcases hc with rfl | hc
      · exact List.length_take_le _ _
      · exact ih _ c hc

/-- The value of an emitted cookie is one of the chunks. -/
theorem emitChunks_value (cs : CookieStore) : ∀ (chunks : List String) (start : Nat),
    ∀ c ∈ emitChunks cs start chunks, c.Value ∈ chunks := by
  intro chunks
  induction chunks with
  | nil => intro start c hc; simp [emitChunks] at hc
  | cons d rest ih =>
    intro start c hc
    simp only [emitChunks, List.mem_cons] at hc
    rcases hc with rfl | hc
    · simp [makeCookie]
    · exact List.mem_cons_of_mem _ (ih (start + 1) c hc)

/-- The cookies of a payload are the cookies of chunks whose concatenation is the
payload: one chunk within the budget, at least two beyond, none over the budget. -/
theorem setSessionCookie_eq (cs : CookieStore) (payload : String) :
    ∃ chunks : List String, chunks ≠ [] ∧ String.join chunks = payload ∧
      setSessionCookie cs payload = emitChunks cs 0 chunks ∧
      (len payload ≤ MaxCookieSize → chunks.length = 1) ∧
      (MaxCookieSize < len payload → 2 ≤ chunks.length) ∧
      (∀ c ∈ chunks, len c ≤ MaxCookieSize) := by
  unfold setSessionCookie
  split
  · rename_i h
    refine ⟨[payload], by simp, by simp [String.join], by simp [emitChunks, chunkName],
      fun _ => rfl, fun h2 => by omega, ?_⟩
    intro c hc
    rw [List.mem_singleton.mp hc]
    exact h
  · rename_i h
    have hbound : ∀ c ∈ chunk MaxCookieSize payload, len c ≤ MaxCookieSize := by
      intro c hc
      simp only [chunk, List.mem_map] at hc
      obtain ⟨l, hl, rfl⟩ := hc
      exact chunkList_le _ _ _ l hl
    have h2 : 2 ≤ (chunk MaxCookieSize payload).length := by
      simp only [chunk, List.length_map]
      have hlt : MaxCookieSize < payload.data.length := by
        show MaxCookieSize < len payload
        omega
      exact chunkList_length_two _ (by decide) _ _ hlt (le_refl _)
    refine ⟨chunk MaxCookieSize payload, ?_, join_chunk _ (by decide) _, rfl,
      fun h3 => absurd h3 h, fun _ => h2, hbound⟩
    intro hnil
    rw [hnil] at h2
    simp at h2

/-- Loading the replay of a saved payload hands that payload to the decoder. -/
theorem LoadSession_setSessionCookie (codec : Codec) (cs : CookieStore) (payload : String) :
    LoadSession codec cs (replay (setSessionCookie cs payload)) =
      match cs.decoder with
      | none => .error "cannot load session: no decoder configured"
      | some dec => codec.Unmarshal dec payload := by
  obtain ⟨chunks, hne, hjoin, heq, _, _, _⟩ := setSessionCookie_eq cs payload
  rw [heq, LoadSession_emitChunks codec cs chunks hne, hjoin]

/-- The fields of a payload without a bar are the payload alone. -/
theorem splitBar_of_not_mem : ∀ l : List Char, '|' ∉ l → splitBar l = [l] := by
  intro l
  induction l with
  | nil => intro _; rfl
  | cons c cs ih =>
    intro h
    have hc : c ≠ '|' := fun hc => h (by simp [hc])
    have hcs : '|' ∉ cs := fun hm => h (List.mem_cons_of_mem _ hm)
    simp [splitBar, hc, ih hcs]

/-- The first field of a payload ends at its first bar. -/
theorem splitBar_append_bar : ∀ (l rest : List Char), '|' ∉ l →
    splitBar (l ++ '|' :: rest) = l :: splitBar rest := by
  intro l
  induction l with
  | nil => intro rest _; simp [splitBar]
  | cons c cs ih =>
    intro rest h
    have hc : c ≠ '|' := fun hc => h (by simp [hc])
    have hcs : '|' ∉ cs := fun hm => h (List.mem_cons_of_mem _ hm)
    simp [splitBar, hc, ih rest hcs]

/-- Under a key without a bar, `exampleCodec` encodes every state without a bar in its
fields, and decodes the payload back to the state. -/
theorem exampleCodec_roundtrip (enc : MarshalUnmarshaler) (st : State)
    (hkey : '|' ∉ enc.key.data) (hs : '|' ∉ st.Subject.data) (hu : '|' ∉ st.User.data)
    (he : '|' ∉ st.Email.data) :
    exampleCodec.Marshal enc st =
      .ok (enc.key ++ "|" ++ st.Subject ++ "|" ++ st.User ++ "|" ++ st.Email) ∧
    exampleCodec.Unmarshal enc
      (enc.key ++ "|" ++ st.Subject ++ "|" ++ st.User ++ "|" ++ st.Email) = .ok st := by
  constructor
  · simp [exampleCodec, hs, hu, he]
  · have hsplit : splitBar
        (enc.key ++ "|" ++ st.Subject ++ "|" ++ st.User ++ "|" ++ st.Email).data =
        [enc.key.data, st.Subject.data, st.User.data, st.Email.data] := by
      have hbar : ("|" : String).data = ['|'] := rfl
      simp only [String.data_append, hbar, List.append_assoc, List.singleton_append,
        List.cons_append, List.nil_append]
      rw [splitBar_append_bar _ _ hkey, splitBar_append_bar _ _ hs,
        splitBar_append_bar _ _ hu, splitBar_of_not_mem _ he]
    simp only [exampleCodec, hsplit]
    simp

/-! ## The claims about the cookie store -/

/-- C7: for a store whose encoder and decoder are the same codec value, and a state that
codec encodes to a payload it decodes back to the state, `SaveSession` succeeds and
`LoadSession` on a request carrying exactly the emitted cookies returns the saved state;
the payload goes into one cookie when it fits the single-cookie budget and into at least
two when it exceeds it, and no cookie carries more than the budget. -/
theorem SaveSession_LoadSession_roundtrip (codec : Codec) (cs : CookieStore)
    (enc : MarshalUnmarshaler) (st : State) (payload : String)
    (henc : cs.encoder = some enc) (hdec : cs.decoder = some enc)
    (hm : codec.Marshal enc st = .ok payload)
    (hu : codec.Unmarshal enc payload = .ok st) :
    ∃ cookies : List Cookie,
      SaveSession codec cs (SessionValue.State st) = .ok cookies ∧
      LoadSession codec cs (replay cookies) = .ok st ∧
      (len payload ≤ MaxCookieSize → cookies.length = 1) ∧
      (MaxCookieSize < len payload → 2 ≤ cookies.length) ∧
      (∀ c ∈ cookies, len c.Value ≤ MaxCookieSize) := by
  obtain ⟨chunks, _, _, heq, h1, h2, h3⟩ := setSessionCookie_eq cs payload
  refine ⟨setSessionCookie cs payload, ?_, ?_, ?_, ?_, ?_⟩
  · simp [SaveSession, henc, hm]
  · rw [LoadSession_setSessionCookie, hdec]
    exact hu
  · intro h; rw [heq, emitChunks_length]; exact h1 h
  · intro h; rw [heq, emitChunks_length]; exact h2 h
  · intro c hc
    rw [heq] at hc
    exact h3 _ (emitChunks_value cs chunks 0 c hc)

/-- C7 at the test's "good" case and at its "huge cookie" case, with `exampleCodec`
under one key on both sides: the first state is saved in one cookie, the second, whose
subject is 8194 bytes long, in at least two, and both are loaded back. -/
theorem SaveSession_LoadSession_roundtrip_witness :
    (exampleStore.encoder = some exampleKey ∧ exampleStore.decoder = some exampleKey ∧
      exampleCodec.Marshal exampleKey exampleState = .ok "k1||user|user@domain.com" ∧
      exampleCodec.Unmarshal exampleKey "k1||user|user@domain.com" = .ok exampleState ∧
      ∃ cookies : List Cookie,
        SaveSession exampleCodec exampleStore (SessionValue.State exampleState) = .ok cookies ∧
        LoadSession exampleCodec exampleStore (replay cookies) = .ok exampleState ∧
        cookies.length = 1) ∧
    (∃ payload : String,
      exampleCodec.Marshal exampleKey hugeState = .ok payload ∧
      exampleCodec.Unmarshal exampleKey payload = .ok hugeState ∧
      MaxCookieSize < len payload ∧
      ∃ cookies : List Cookie,
        SaveSession exampleCodec exampleStore (SessionValue.State hugeState) = .ok cookies ∧
        LoadSession exampleCodec exampleStore (replay cookies) = .ok hugeState ∧
        2 ≤ cookies.length) :=
  have hsub : '|' ∉ hugeState.Subject.data :=
    fun h => absurd (List.eq_of_mem_replicate h) (by decide)
  have hbig := exampleCodec_roundtrip exampleKey hugeState (by decide) hsub (by decide)
    (by decide)
  have hlen : MaxCookieSize <
      len (exampleKey.key ++ "|" ++ hugeState.Subject ++ "|" ++ hugeState.User ++ "|" ++
        hugeState.Email) := by
    have h1 : len hugeState.Subject = 8194 := List.length_replicate 8194 'a'
    have h2 : len (exampleKey.key ++ "|" ++ hugeState.Subject ++ "|" ++ hugeState.User ++
        "|" ++ hugeState.Email) =
        len exampleKey.key + len "|" + len hugeState.Subject + len "|" + len hugeState.User +
          len "|" + len hugeState.Email := by
      simp only [len, String.length_append]
    rw [h2, h1]
    unfold MaxCookieSize
    omega
  ⟨⟨rfl, rfl, by rfl, by rfl,
      (SaveSession_LoadSession_roundtrip exampleCodec exampleStore exampleKey exampleState
        "k1||user|user@domain.com" rfl rfl (by rfl) (by rfl)).elim
        fun cookies h => ⟨cookies, h.1, h.2.1, h.2.2.1 (by decide)⟩⟩,
    ⟨_, hbig.1, hbig.2, hlen,
      (SaveSession_LoadSession_roundtrip exampleCodec exampleStore exampleKey hugeState
        _ rfl rfl hbig.1 hbig.2).elim
        fun cookies h => ⟨cookies, h.1, h.2.1, h.2.2.2.1 hlen⟩⟩⟩

/-- C8, as the model has it: saving a raw string or a raw byte sequence succeeds on
every store, with or without an encoder; saving a structured state without an encoder
fails; loading the cookies of a raw save fails when no decoder is configured; and with
a decoder configured it returns what the decoder returns on the raw payload, so it
fails whenever the decoder rejects that payload, and it never returns the payload
itself. -/
theorem SaveSession_raw_asymmetry (codec : Codec) (cs : CookieStore) (raw : String) :
    SaveSession codec cs (SessionValue.String raw) = .ok (setSessionCookie cs raw) ∧
    SaveSession codec cs (SessionValue.Bytes raw) = .ok (setSessionCookie cs raw) ∧
    (cs.encoder = none →
      ∀ st : State, ∃ e, SaveSession codec cs (SessionValue.State st) = .error e) ∧
    (cs.decoder = none →
      ∃ e, LoadSession codec cs (replay (setSessionCookie cs raw)) = .error e) ∧
    (∀ dec, cs.decoder = some dec →
      LoadSession codec cs (replay (setSessionCookie cs raw)) = codec.Unmarshal dec raw) := by
  refine ⟨rfl, rfl, ?_, ?_, ?_⟩
  · intro h st
    simp [SaveSession, h]
  · intro h
    exact ⟨_, by rw [LoadSession_setSessionCookie, h]⟩
  · intro dec h
    rw [LoadSession_setSessionCookie, h]

/-- C8 as stated fails at a raw string that is itself a payload of the decoder's codec:
saved on a store with no encoder, it is loaded back through the decoder without an
error, as the state it encodes. -/
theorem SaveSession_raw_asymmetry_counterexample :
    rawStore.encoder = none ∧
    SaveSession exampleCodec rawStore (SessionValue.String "k1||user|user@domain.com") =
      .ok [makeCookie rawStore "_pomerium" "k1||user|user@domain.com"] ∧
    LoadSession exampleCodec rawStore
      (replay [makeCookie rawStore "_pomerium" "k1||user|user@domain.com"]) =
      .ok exampleState :=
  ⟨rfl, by rfl, by rfl⟩

end sessions
